import Mathlib

/-!
Verification of the pricing / coupon / checkout pipeline and the
recommendation scorer of the Food_DEL food-ordering application.

The definitions below are a shallow embedding of the Python source:
  * `src/blueprints/customer.py` — coupon registry, `_is_item_eligible_for_coupon`,
    `_discounted_unit_price`, `apply_coupon`, `place_order`,
    `get_customer_recommendations`;
  * `src/routes.py` — the legacy duplicate of `get_customer_recommendations`;
  * `src/models.py` — the `MenuItem`, `Cart`, `Order`, `OrderItem`,
    `UserPreference` rows (only the columns the pipeline reads).

Python floats holding currency amounts are modelled as exact rationals `ℚ`;
Python's `round(x, 2)` (round-half-to-even at the second decimal) is modelled
by `round2` below.  Python string containment `k in text` is modelled on the
underlying character lists.
-/

namespace FoodDel

/-- The `menu_items` row (`src/models.py`), restricted to the columns read by
the pricing engine and the recommendation scorer. -/
structure MenuItem where
  id : ℕ
  name : String
  category : String
  price : ℚ
  cuisine_type : String
  is_vegetarian : Bool
  is_vegan : Bool
  is_gluten_free : Bool
  is_available : Bool
  order_count : ℕ
  restaurant_id : ℕ
deriving DecidableEq

/-- One `cart` row (`src/models.py`): the menu item it references (via the
`menu_item` relationship) and the quantity. -/
structure CartLine where
  menu_item : MenuItem
  quantity : ℕ
deriving DecidableEq

/-- One `user_preferences` row (`src/models.py`). -/
structure UserPreference where
  preference_type : String
  preference_value : String
deriving DecidableEq

/-- One `order_items` row created at checkout. -/
structure OrderLine where
  menu_item_id : ℕ
  quantity : ℕ
  price : ℚ
deriving DecidableEq

/-- One `orders` row created at checkout, together with its `order_items`. -/
structure OrderRec where
  restaurant_id : ℕ
  total_amount : ℚ
  lines : List OrderLine
deriving DecidableEq

/-- Python's `str.lower()`, modelled on the character list (the repository's
menu data is ASCII, where `Char.toLower` agrees with Python). -/
def pyLower (s : String) : String :=
  ⟨s.data.map Char.toLower⟩

/-- Python's `str.upper()`, modelled on the character list. -/
def pyUpper (s : String) : String :=
  ⟨s.data.map Char.toUpper⟩

/-- Python's `str.strip()`: drop leading and trailing whitespace. -/
def pyStrip (s : String) : String :=
  ⟨((s.data.dropWhile Char.isWhitespace).reverse.dropWhile Char.isWhitespace).reverse⟩

/-- Python's string containment `needle in haystack`, on character lists:
some tail of the haystack starts with the needle. -/
def strContains (haystack needle : String) : Bool :=
  haystack.data.tails.any (fun t => List.isPrefixOf needle.data t)

/-- `_COUPON_MAP` from `src/blueprints/customer.py`: coupon code ↦
(discount fraction, keyword list). -/
def couponMap (code : String) : Option (ℚ × List String) :=
  if code = "PIZZA50" then some (1/2, ["pizza"])
  else if code = "BIRYANI30" then some (3/10, ["biryani"])
  else if code = "HEALTHY40" then some (2/5, ["bowl", "healthy"])
  else if code = "SUSHI25" then some (1/4, ["sushi"])
  else none

/-- `_is_item_eligible_for_coupon` from `src/blueprints/customer.py`:
the empty/unknown code is ineligible, otherwise some keyword of the code must
occur in the lowercased `"{category} {name}"`. -/
def _is_item_eligible_for_coupon (m : MenuItem) (coupon : String) : Bool :=
  match couponMap coupon with
  | none => false
  | some (_, keywords) =>
      keywords.any (fun k => strContains (pyLower (m.category ++ " " ++ m.name)) k)

/-- Round-half-to-even to an integer: the behaviour of Python's `round` on an
exactly represented value. -/
def roundHalfEven (q : ℚ) : ℤ :=
  if q - ⌊q⌋ < 1/2 then ⌊q⌋
  else if (1 : ℚ)/2 < q - ⌊q⌋ then ⌊q⌋ + 1
  else if ⌊q⌋ % 2 = 0 then ⌊q⌋ else ⌊q⌋ + 1

/-- Python's `round(x, 2)`. -/
def round2 (q : ℚ) : ℚ :=
  (roundHalfEven (q * 100) : ℚ) / 100

/-- `_discounted_unit_price` from `src/blueprints/customer.py`. -/
def _discounted_unit_price (m : MenuItem) (coupon : String) : ℚ :=
  match couponMap coupon with
  | some (pct, _) =>
      if _is_item_eligible_for_coupon m coupon then round2 (m.price * (1 - pct))
      else m.price
  | none => m.price

/-- `sum(item.quantity * item.menu_item.price for item in cart_items)` —
the undiscounted subtotal computed in `apply_coupon` / `cart` /
`remove_from_cart` / `update_cart_quantity`. -/
def cartSubtotal (lines : List CartLine) : ℚ :=
  (lines.map (fun l => (l.quantity : ℚ) * l.menu_item.price)).sum

/-- `sum(item.quantity * _discounted_unit_price(item.menu_item, coupon) ...)` —
the discounted total computed next to `cartSubtotal` in the same handlers. -/
def cartDiscountedTotal (lines : List CartLine) (coupon : String) : ℚ :=
  (lines.map (fun l => (l.quantity : ℚ) * _discounted_unit_price l.menu_item coupon)).sum

/-- The `{subtotal, discount, total}` triple the cart handlers report. -/
structure CartTotals where
  subtotal : ℚ
  discount : ℚ
  total : ℚ
deriving DecidableEq

/-- The totals as assembled in `apply_coupon`:
`total_discount = round(subtotal - discounted_total, 2)`. -/
def cartTotals (lines : List CartLine) (coupon : String) : CartTotals :=
  { subtotal := cartSubtotal lines
    discount := round2 (cartSubtotal lines - cartDiscountedTotal lines coupon)
    total := cartDiscountedTotal lines coupon }

/-- `(code or '').upper().strip()` — the normalisation applied both to the
submitted code in `apply_coupon` and to the stored session value in
`_get_active_coupon`. -/
def normalizeCode (s : String) : String :=
  pyStrip (pyUpper s)

/-- What the `apply_coupon` handler leaves behind: whether it reported
success, the session's `coupon_code` after the call, and the totals returned
to the client (`none` on the error path). -/
structure ApplyCouponOutcome where
  ok : Bool
  sessionCoupon : String
  totals : Option CartTotals
deriving DecidableEq

/-- The `apply_coupon` route handler from `src/blueprints/customer.py`:
normalise the submitted code; reject a non-empty unknown code leaving the
session untouched; otherwise store the code (possibly `""`) in the session and
report the recomputed totals, reading the active coupon back through
`_get_active_coupon` (a second normalisation of the stored value). -/
def apply_coupon (rawCode : String) (sessionCoupon : String)
    (cart_items : List CartLine) : ApplyCouponOutcome :=
  let code := normalizeCode rawCode
  if code ≠ "" ∧ couponMap code = none then
    { ok := false, sessionCoupon := sessionCoupon, totals := none }
  else
    let coupon := normalizeCode code
    { ok := true, sessionCoupon := code,
      totals := some (cartTotals cart_items coupon) }

/-- Helper for `distinctKeys`: keep the first occurrence of every key not
already seen. -/
def distinctKeysAux (seen : List ℕ) : List ℕ → List ℕ
  | [] => []
  | x :: xs =>
      if x ∈ seen then distinctKeysAux seen xs
      else x :: distinctKeysAux (x :: seen) xs

/-- First occurrences, in order, of the keys of a Python `dict` built by
`setdefault` insertion — the iteration order of `restaurant_items` in
`place_order`. -/
def distinctKeys (l : List ℕ) : List ℕ :=
  distinctKeysAux [] l

/-- The `Order` and `OrderItem` rows `place_order` creates for one restaurant
partition: each line freezes `_discounted_unit_price`, and `total_amount` is
`round(Σ quantity * unit, 2)`. -/
def orderForRestaurant (cart_items : List CartLine) (coupon : String)
    (rid : ℕ) : OrderRec :=
  let items := cart_items.filter (fun l => l.menu_item.restaurant_id = rid)
  { restaurant_id := rid
    total_amount :=
      round2 ((items.map
        (fun l => (l.quantity : ℚ) * _discounted_unit_price l.menu_item coupon)).sum)
    lines := items.map (fun l =>
      { menu_item_id := l.menu_item.id, quantity := l.quantity,
        price := _discounted_unit_price l.menu_item coupon }) }

/-- All orders created by one `place_order` call, one per distinct
`restaurant_id` in cart iteration order. -/
def ordersForCart (cart_items : List CartLine) (coupon : String) : List OrderRec :=
  (distinctKeys (cart_items.map (fun l => l.menu_item.restaurant_id))).map
    (orderForRestaurant cart_items coupon)

/-- Total quantity of a given menu item across the cart — the net amount by
which `place_order`'s loop increments that item's `order_count`. -/
def orderedQty (cart_items : List CartLine) (mid : ℕ) : ℕ :=
  ((cart_items.filter (fun l => l.menu_item.id = mid)).map (fun l => l.quantity)).sum

/-- The state `place_order` reads and writes: the menu-item catalog, the
customer's cart rows, the persisted orders, and the session coupon value. -/
structure ShopState where
  catalog : List MenuItem
  cart : List CartLine
  orders : List OrderRec
  coupon : String
deriving DecidableEq

/-- The `place_order` route handler from `src/blueprints/customer.py`, as the
state transition its committed transaction performs: reject an empty cart
(returning the state unchanged and `false`), otherwise create one order per
restaurant, bump `order_count` per ordered quantity, clear the cart and the
session coupon, and report success.  (The timestamp-derived `order_number`
string is wall-clock I/O and is not part of the model.) -/
def place_order (s : ShopState) : ShopState × Bool :=
  if s.cart = [] then (s, false)
  else
    let coupon := normalizeCode s.coupon
    ({ catalog := s.catalog.map (fun m =>
          { m with order_count := m.order_count + orderedQty s.cart m.id })
       cart := []
       orders := s.orders ++ ordersForCart s.cart coupon
       coupon := "" }, true)

/-! ### Transactional model of checkout

`place_order` performs all its persistence through `db.session` and only calls
`db.session.commit()` once, at the very end; its `except` branch calls
`db.session.rollback()`.  To state atomicity we replay the handler as the
sequence of individual session writes it issues, against a pending/committed
pair of database states. -/

/-- The database rows `place_order` touches (the session coupon lives in the
web session, outside the database transaction). -/
structure DBState where
  catalog : List MenuItem
  cart : List CartLine
  orders : List OrderRec
deriving DecidableEq

/-- One uncommitted session write issued by `place_order`:
`db.session.add(order)` (with its `flush`), `db.session.add(OrderItem(...))`,
the `order_count` increment on a loaded menu item, or the cart bulk delete. -/
inductive DBWrite where
  | addOrder (rid : ℕ) (amount : ℚ)
  | addOrderLine (ln : OrderLine)
  | incOrderCount (mid : ℕ) (qty : ℕ)
  | clearCart
deriving DecidableEq

/-- Attach an order line to the most recently added order (the one whose id
the preceding `flush` produced). -/
def appendLineLast : List OrderRec → OrderLine → List OrderRec
  | [], _ => []
  | [o], ln => [{ o with lines := o.lines ++ [ln] }]
  | o :: os, ln => o :: appendLineLast os ln

/-- Effect of one session write on the pending database state. -/
def applyWrite (db : DBState) : DBWrite → DBState
  | .addOrder rid amt => { db with orders := db.orders ++ [⟨rid, amt, []⟩] }
  | .addOrderLine ln => { db with orders := appendLineLast db.orders ln }
  | .incOrderCount mid q =>
      { db with catalog := db.catalog.map (fun m =>
          if m.id = mid then { m with order_count := m.order_count + q } else m) }
  | .clearCart => { db with cart := [] }

/-- The writes `place_order` issues for one restaurant partition, in source
order: add the order, then per cart line add the order line and bump the
item's `order_count`. -/
def restaurantWrites (cart_items : List CartLine) (coupon : String)
    (rid : ℕ) : List DBWrite :=
  let items := cart_items.filter (fun l => l.menu_item.restaurant_id = rid)
  DBWrite.addOrder rid
      (round2 ((items.map
        (fun l => (l.quantity : ℚ) * _discounted_unit_price l.menu_item coupon)).sum)) ::
    items.flatMap (fun l =>
      [DBWrite.addOrderLine
          { menu_item_id := l.menu_item.id, quantity := l.quantity,
            price := _discounted_unit_price l.menu_item coupon },
        DBWrite.incOrderCount l.menu_item.id l.quantity])

/-- Every session write of one `place_order` call, in source order, ending
with the cart bulk delete. -/
def checkoutWrites (cart_items : List CartLine) (coupon : String) : List DBWrite :=
  (distinctKeys (cart_items.map (fun l => l.menu_item.restaurant_id))).flatMap
    (restaurantWrites cart_items coupon) ++ [DBWrite.clearCart]

/-- A step of the transaction: an uncommitted write, or `db.session.commit()`. -/
inductive TxnStep where
  | write (w : DBWrite)
  | commit
deriving DecidableEq

/-- Transaction state: what the database durably holds, and the uncommitted
view of the current session. -/
structure Txn where
  committed : DBState
  pending : DBState
deriving DecidableEq

/-- Semantics of a transaction step. -/
def applyStep (t : Txn) : TxnStep → Txn
  | .write w => { t with pending := applyWrite t.pending w }
  | .commit => { t with committed := t.pending }

/-- `db.session.rollback()`: discard the uncommitted view. -/
def rollback (t : Txn) : Txn :=
  { t with pending := t.committed }

/-- The full step sequence of one `place_order` call: all writes, then the
single final commit. -/
def checkoutSteps (cart_items : List CartLine) (coupon : String) : List TxnStep :=
  (checkoutWrites cart_items coupon).map TxnStep.write ++ [TxnStep.commit]

/-- Run `place_order` against database `db` with a persistence-failure
injection: `failAfter = some i` (with `i` inside the step sequence) raises an
exception once `i` steps have executed, which the handler's `except` branch
answers with `db.session.rollback()`; the caller then observes the committed
state and a failure result.  `failAfter = none` (or an index past the end) is
the untroubled run. -/
def runCheckout (db : DBState) (sessionCoupon : String)
    (failAfter : Option ℕ) : DBState × Bool :=
  if db.cart = [] then (db, false)
  else
    let coupon := normalizeCode sessionCoupon
    let steps := checkoutSteps db.cart coupon
    match failAfter with
    | some i =>
        if i < steps.length then
          let t := (steps.take i).foldl applyStep ⟨db, db⟩
          ((rollback t).committed, false)
        else ((steps.foldl applyStep ⟨db, db⟩).committed, true)
    | none => ((steps.foldl applyStep ⟨db, db⟩).committed, true)

/-! ### Recommendation scorer -/

/-- `ORDER BY MenuItem.order_count DESC`: descending `order_count`. -/
def byCountDesc (a b : MenuItem) : Prop :=
  b.order_count ≤ a.order_count

instance : DecidableRel byCountDesc :=
  fun a b => inferInstanceAs (Decidable (b.order_count ≤ a.order_count))

instance : IsTotal MenuItem byCountDesc :=
  ⟨fun a b => le_total b.order_count a.order_count⟩

instance : IsTrans MenuItem byCountDesc :=
  ⟨fun _ _ _ h1 h2 => le_trans h2 h1⟩

/-- The query's `ORDER BY order_count DESC`, modelled as a stable sort
(ties stay in catalog order). -/
def sortByOrderCountDesc (l : List MenuItem) : List MenuItem :=
  l.insertionSort byCountDesc

/-- The `seen`/`combined` de-duplication loop at the end of
`get_customer_recommendations`: keep the first occurrence of every item id. -/
def dedupById (seen : List ℕ) : List MenuItem → List MenuItem
  | [] => []
  | m :: ms =>
      if m.id ∈ seen then dedupById seen ms
      else m :: dedupById (m.id :: seen) ms

/-- The `dietary_values` set built from the customer's preferences. -/
def dietaryValues (prefs : List UserPreference) : List String :=
  (prefs.filter (fun p => p.preference_type = "dietary_restriction")).map
    (fun p => p.preference_value)

/-- `require_vegan` in the source. -/
def requireVegan (prefs : List UserPreference) : Bool :=
  (dietaryValues prefs).contains "vegan"

/-- `require_veg` in the source. -/
def requireVeg (prefs : List UserPreference) : Bool :=
  (dietaryValues prefs).contains "vegetarian"

/-- `require_gluten_free` in the source. -/
def requireGlutenFree (prefs : List UserPreference) : Bool :=
  (dietaryValues prefs).contains "gluten_free"

/-- `favorite_cuisines` in the source. -/
def favoriteCuisines (prefs : List UserPreference) : List String :=
  (prefs.filter (fun p => p.preference_type = "favorite_cuisine")).map
    (fun p => p.preference_value)

/-- The primary candidate query (`base_query` in the source): available,
restricted to favourite cuisines when any are set, and dietary-filtered. -/
def primaryCandidates (prefs : List UserPreference)
    (catalog : List MenuItem) : List MenuItem :=
  catalog.filter (fun m =>
    m.is_available
    && ((favoriteCuisines prefs).isEmpty
        || (favoriteCuisines prefs).contains m.cuisine_type)
    && (!requireVegan prefs || m.is_vegan)
    && (!requireVeg prefs || m.is_vegetarian)
    && (!requireGlutenFree prefs || m.is_gluten_free))

/-- The backfill candidate query (`backfill_query` in the source): available
and dietary-filtered, with no cuisine restriction. -/
def dietaryCandidates (prefs : List UserPreference)
    (catalog : List MenuItem) : List MenuItem :=
  catalog.filter (fun m =>
    m.is_available
    && (!requireVegan prefs || m.is_vegan)
    && (!requireVeg prefs || m.is_vegetarian)
    && (!requireGlutenFree prefs || m.is_gluten_free))

namespace Customer

/-- `get_customer_recommendations` from `src/blueprints/customer.py`, as a
function of the customer's preference rows and the menu-item catalog the
queries run over. -/
def get_customer_recommendations (prefs : List UserPreference)
    (catalog : List MenuItem) : List MenuItem :=
  let filtered_popular :=
    (sortByOrderCountDesc (primaryCandidates prefs catalog)).take 8
  let backfill :=
    if filtered_popular.length < 8 then
      (sortByOrderCountDesc (dietaryCandidates prefs catalog)).take
        (8 - filtered_popular.length)
    else []
  (dedupById [] (filtered_popular ++ backfill)).take 8

end Customer

namespace Routes

/-- `get_customer_recommendations` from the legacy monolithic `src/routes.py`,
translated independently of the blueprint copy. -/
def get_customer_recommendations (prefs : List UserPreference)
    (catalog : List MenuItem) : List MenuItem :=
  let dietary_values :=
    (prefs.filter (fun p => p.preference_type = "dietary_restriction")).map
      (fun p => p.preference_value)
  let require_veg := dietary_values.contains "vegetarian"
  let require_vegan := dietary_values.contains "vegan"
  let require_gluten_free := dietary_values.contains "gluten_free"
  let favorite_cuisines :=
    (prefs.filter (fun p => p.preference_type = "favorite_cuisine")).map
      (fun p => p.preference_value)
  let filtered_popular :=
    (sortByOrderCountDesc (catalog.filter (fun m =>
      m.is_available
      && (favorite_cuisines.isEmpty || favorite_cuisines.contains m.cuisine_type)
      && (!require_vegan || m.is_vegan)
      && (!require_veg || m.is_vegetarian)
      && (!require_gluten_free || m.is_gluten_free)))).take 8
  let backfill :=
    if filtered_popular.length < 8 then
      (sortByOrderCountDesc (catalog.filter (fun m =>
        m.is_available
        && (!require_vegan || m.is_vegan)
        && (!require_veg || m.is_vegetarian)
        && (!require_gluten_free || m.is_gluten_free)))).take
          (8 - filtered_popular.length)
    else []
  (dedupById [] (filtered_popular ++ backfill)).take 8

end Routes

/-! ### Concrete sample data (used by the witness evaluations) -/

/-- The §8 scenario item: price 169.00, category `"Pizza"`,
name `"Margherita Pizza"`. -/
def margheritaPizza : MenuItem :=
  { id := 1, name := "Margherita Pizza", category := "Pizza", price := 169,
    cuisine_type := "Italian", is_vegetarian := true, is_vegan := false,
    is_gluten_free := false, is_available := true, order_count := 3,
    restaurant_id := 1 }

/-- A second restaurant's item, eligible for `"SUSHI25"`. -/
def sushiNigiri : MenuItem :=
  { id := 2, name := "Nigiri", category := "Sushi", price := 240,
    cuisine_type := "Japanese", is_vegetarian := false, is_vegan := false,
    is_gluten_free := true, is_available := true, order_count := 5,
    restaurant_id := 2 }

/-- A sushi item priced at 0.009 — a positive price that is not a whole
number of hundredths. -/
def sushiRollCheap : MenuItem :=
  { id := 3, name := "Roll", category := "Sushi", price := 9/1000,
    cuisine_type := "Japanese", is_vegetarian := false, is_vegan := false,
    is_gluten_free := false, is_available := true, order_count := 0,
    restaurant_id := 2 }

/-- A minimal available catalog item parameterised by id, popularity and
cuisine. -/
def plainItem (i cnt : ℕ) (cuisine : String) : MenuItem :=
  { id := i, name := "Dish", category := "Main", price := 10,
    cuisine_type := cuisine, is_vegetarian := false, is_vegan := false,
    is_gluten_free := false, is_available := true, order_count := cnt,
    restaurant_id := 1 }

/-- Nine available items: one Italian (most popular), eight Chinese. -/
def nineItemCatalog : List MenuItem :=
  [plainItem 1 100 "Italian", plainItem 2 90 "Chinese", plainItem 3 80 "Chinese",
   plainItem 4 70 "Chinese", plainItem 5 60 "Chinese", plainItem 6 50 "Chinese",
   plainItem 7 40 "Chinese", plainItem 8 30 "Chinese", plainItem 9 20 "Chinese"]

/-- A single favourite-cuisine preference for `"Italian"`. -/
def italianPrefs : List UserPreference :=
  [{ preference_type := "favorite_cuisine", preference_value := "Italian" }]

/-- Nine available items where the single Italian item is the least popular,
so the cuisine-unrestricted backfill does not overlap the primary set. -/
def nineItemCatalogB : List MenuItem :=
  [plainItem 1 10 "Italian", plainItem 2 90 "Chinese", plainItem 3 80 "Chinese",
   plainItem 4 70 "Chinese", plainItem 5 60 "Chinese", plainItem 6 50 "Chinese",
   plainItem 7 40 "Chinese", plainItem 8 30 "Chinese", plainItem 9 20 "Chinese"]

/-- A two-restaurant cart: two Margherita pizzas and one nigiri. -/
def twoRestaurantCart : List CartLine :=
  [{ menu_item := margheritaPizza, quantity := 2 },
   { menu_item := sushiNigiri, quantity := 1 }]

/-! ### Basic lemmas: rounding -/

theorem roundHalfEven_le (q : ℚ) : (roundHalfEven q : ℚ) ≤ q + 1/2 := by
  unfold roundHalfEven
  have hf : (⌊q⌋ : ℚ) ≤ q := Int.floor_le q
  split_ifs with h1 h2 h3
  · linarith
  · push_cast
    linarith
  · linarith
  · push_cast
    linarith

theorem roundHalfEven_nonneg {q : ℚ} (h : 0 ≤ q) : 0 ≤ roundHalfEven q := by
  unfold roundHalfEven
  have hf : 0 ≤ ⌊q⌋ := Int.floor_nonneg.mpr h
  split_ifs <;> omega

theorem round2_nonneg {q : ℚ} (h : 0 ≤ q) : 0 ≤ round2 q := by
  unfold round2
  have := roundHalfEven_nonneg (by linarith : (0:ℚ) ≤ q * 100)
  positivity

/-- For a price that is a whole number of hundredths and a discount fraction
in `[0, 1]`, the rounded discounted price never exceeds the price. -/
theorem round2_discount_le {n : ℕ} {pct : ℚ} (h0 : 0 ≤ pct) (h1 : pct ≤ 1) :
    round2 ((n : ℚ)/100 * (1 - pct)) ≤ (n : ℚ)/100 := by
  unfold round2
  have hx : (n : ℚ)/100 * (1 - pct) * 100 = (n : ℚ) * (1 - pct) := by ring
  rw [hx]
  have hn : (0 : ℚ) ≤ (n : ℚ) := Nat.cast_nonneg n
  have h2 : (roundHalfEven ((n : ℚ) * (1 - pct)) : ℚ) ≤ (n : ℚ) * (1 - pct) + 1/2 :=
    roundHalfEven_le _
  have h3 : (n : ℚ) * (1 - pct) ≤ (n : ℚ) := by nlinarith
  have h4 : (roundHalfEven ((n : ℚ) * (1 - pct)) : ℚ) < (n : ℚ) + 1 := by linarith
  have h5 : roundHalfEven ((n : ℚ) * (1 - pct)) ≤ (n : ℤ) := by
    have : (roundHalfEven ((n : ℚ) * (1 - pct)) : ℚ) < ((n : ℤ) : ℚ) + 1 := by
      push_cast
      linarith
    exact Int.lt_add_one_iff.mp (by exact_mod_cast this)
  have h6 : (roundHalfEven ((n : ℚ) * (1 - pct)) : ℚ) ≤ (n : ℚ) := by
    exact_mod_cast h5
  linarith [h6]

/-- The registry's discount fractions all lie in `[0, 1]`. -/
theorem couponMap_pct_bounds {c : String} {pct : ℚ} {kws : List String}
    (h : couponMap c = some (pct, kws)) : 0 ≤ pct ∧ pct ≤ 1 := by
  unfold couponMap at h
  split_ifs at h <;> simp only [Option.some.injEq, Prod.mk.injEq] at h <;>
    obtain ⟨rfl, rfl⟩ := h <;> norm_num

/-- If the price is a whole number of hundredths, the discounted unit price
never exceeds the listed price, whatever the coupon. -/
theorem discounted_unit_price_le {m : MenuItem} (c : String)
    (hp : ∃ n : ℕ, m.price = (n : ℚ)/100) :
    _discounted_unit_price m c ≤ m.price := by
  obtain ⟨n, hn⟩ := hp
  unfold _discounted_unit_price
  cases hc : couponMap c with
  | none => exact le_refl _
  | some v =>
      obtain ⟨pct, kws⟩ := v
      dsimp only
      split
      · rw [hn]
        exact round2_discount_le (couponMap_pct_bounds hc).1 (couponMap_pct_bounds hc).2
      · exact le_refl _

/-! ### Basic lemmas: substring matching -/

theorem strContains_iff (hay needle : String) :
    strContains hay needle = true ↔ needle.data <:+: hay.data := by
  unfold strContains
  rw [List.any_eq_true]
  constructor
  · rintro ⟨t, ht, hp⟩
    rw [List.mem_tails] at ht
    rw [ List.isPrefixOf_iff_prefix] at hp
    exact List.infix_iff_prefix_suffix.mpr ⟨t, hp, ht⟩
  · intro h
    obtain ⟨t, hp, ht⟩ := List.infix_iff_prefix_suffix.mp h
    refine ⟨t, ?_, ?_⟩
    · rw [List.mem_tails]
      exact ht
    · rw [ List.isPrefixOf_iff_prefix]
      exact hp

/-- For a known code, eligibility is exactly: some keyword occurs in the
lowercased `"{category} {name}"`. -/
theorem eligible_iff {c : String} {pct : ℚ} {kws : List String} (m : MenuItem)
    (hc : couponMap c = some (pct, kws)) :
    _is_item_eligible_for_coupon m c = true ↔
      ∃ k ∈ kws, k.data <:+: (pyLower (m.category ++ " " ++ m.name)).data := by
  simp only [_is_item_eligible_for_coupon, hc, List.any_eq_true, strContains_iff]

/-! ### Claim C1 -/

/-- C1: `_discounted_unit_price` returns the listed price unchanged when the
coupon code is empty or unknown; for a known code `(pct, kws)` it returns
`round(price * (1 - pct), 2)` exactly when some keyword of `kws` occurs in the
lowercased `"{category} {name}"`, and the listed price unchanged otherwise. -/
theorem claim_C1_discounted_unit_price (m : MenuItem) (c : String) :
    (c = "" → _discounted_unit_price m c = m.price) ∧
    (couponMap c = none → _discounted_unit_price m c = m.price) ∧
    (∀ pct kws, couponMap c = some (pct, kws) →
      ((∃ k ∈ kws, k.data <:+: (pyLower (m.category ++ " " ++ m.name)).data) →
        _discounted_unit_price m c = round2 (m.price * (1 - pct))) ∧
      ((¬ ∃ k ∈ kws, k.data <:+: (pyLower (m.category ++ " " ++ m.name)).data) →
        _discounted_unit_price m c = m.price)) := by
  refine ⟨?_, ?_, ?_⟩
  · rintro rfl
    rfl
  · intro h
    simp only [_discounted_unit_price, h]
  · intro pct kws hc
    constructor
    · intro hk
      have he : _is_item_eligible_for_coupon m c = true := (eligible_iff m hc).mpr hk
      simp only [_discounted_unit_price, hc, he, if_true]
    · intro hk
      have he : _is_item_eligible_for_coupon m c = false := by
        cases heb : _is_item_eligible_for_coupon m c with
        | true => exact absurd ((eligible_iff m hc).mp heb) hk
        | false => rfl
      simp only [_discounted_unit_price, hc, he, Bool.false_eq_true, if_false]

section ConcreteEvaluation

attribute [local semireducible] Rat.mul Rat.add Rat.sub Rat.inv

/-- Witness for C1 at `margheritaPizza` / `"PIZZA50"`: the keyword branch
fires and yields the rounded half price. -/
theorem claim_C1_witness :
    _discounted_unit_price margheritaPizza "PIZZA50" = round2 (169 * (1 - 1/2)) := by
  have h :=
    ((claim_C1_discounted_unit_price margheritaPizza "PIZZA50").2.2 (1/2) ["pizza"] rfl).1
  have hk : ∃ k ∈ ["pizza"],
      k.data <:+:
        (pyLower (margheritaPizza.category ++ " " ++ margheritaPizza.name)).data :=
    ⟨"pizza", List.mem_singleton.mpr rfl, ⟨[], " margherita pizza".data, by decide⟩⟩
  exact h hk

end ConcreteEvaluation

/-! ### Claim C9 -/

section ConcreteC9

attribute [local semireducible] Rat.mul Rat.add Rat.sub Rat.inv

/-- C9: the §8 scenario — price 169.00, coupon `"PIZZA50"` (fraction 0.50,
keyword `"pizza"`), category `"Pizza"`, name `"Margherita Pizza"`,
quantity 2 — yields unit price 84.50, line total 169.00, subtotal 338.00,
discount 169.00 and total 169.00. -/
theorem claim_C9_concrete_pipeline :
    couponMap "PIZZA50" = some (1/2, ["pizza"]) ∧
    _discounted_unit_price margheritaPizza "PIZZA50" = 169/2 ∧
    (2 : ℚ) * _discounted_unit_price margheritaPizza "PIZZA50" = 169 ∧
    cartTotals [{ menu_item := margheritaPizza, quantity := 2 }] "PIZZA50" =
      { subtotal := 338, discount := 169, total := 169 } := by
  refine ⟨rfl, by decide, by decide, by decide⟩

end ConcreteC9

/-! ### Claim C2 -/

/-- C2 (amended): when every cart line has quantity ≥ 1 and a listed price
that is a positive whole number of hundredths, the reported discount is
`round(subtotal - total, 2)`, the discounted total never exceeds the
subtotal, and the discount is never negative. -/
theorem claim_C2_cart_totals_invariant (lines : List CartLine) (c : String)
    (hp : ∀ l ∈ lines, ∃ n : ℕ, 0 < n ∧ l.menu_item.price = (n : ℚ)/100)
    (hq : ∀ l ∈ lines, 1 ≤ l.quantity) :
    (cartTotals lines c).discount =
      round2 ((cartTotals lines c).subtotal - (cartTotals lines c).total) ∧
    (cartTotals lines c).total ≤ (cartTotals lines c).subtotal ∧
    0 ≤ (cartTotals lines c).discount := by
  have htot : cartDiscountedTotal lines c ≤ cartSubtotal lines := by
    unfold cartDiscountedTotal cartSubtotal
    apply List.sum_le_sum
    intro l hl
    obtain ⟨n, _, hn⟩ := hp l hl
    exact mul_le_mul_of_nonneg_left (discounted_unit_price_le c ⟨n, hn⟩)
      (Nat.cast_nonneg l.quantity)
  refine ⟨rfl, htot, ?_⟩
  show 0 ≤ round2 (cartSubtotal lines - cartDiscountedTotal lines c)
  exact round2_nonneg (by linarith)

section ConcreteC2

attribute [local semireducible] Rat.mul Rat.add Rat.sub Rat.inv

/-- C2 counterexample: the claim quantifies over every positive listed price.
For the price 0.009 (positive, quantity 1) and the known coupon `"SUSHI25"`,
the per-unit rounding rounds 0.00675 up to 0.01, so the discounted total
exceeds the subtotal and the reported discount is negative. -/
theorem claim_C2_counterexample :
    (∀ l ∈ [CartLine.mk sushiRollCheap 1], 1 ≤ l.quantity ∧ 0 < l.menu_item.price) ∧
    ¬ ((cartTotals [CartLine.mk sushiRollCheap 1] "SUSHI25").total ≤
        (cartTotals [CartLine.mk sushiRollCheap 1] "SUSHI25").subtotal) := by
  constructor
  · decide
  · decide

/-- Witness for the amended C2 at the pizza cart: both hypotheses hold at the
concrete input and the conclusion follows from the theorem. -/
theorem claim_C2_witness :
    (cartTotals [CartLine.mk margheritaPizza 2] "PIZZA50").total ≤
      (cartTotals [CartLine.mk margheritaPizza 2] "PIZZA50").subtotal := by
  have h := claim_C2_cart_totals_invariant [CartLine.mk margheritaPizza 2] "PIZZA50"
    (by intro l hl; refine ⟨16900, by norm_num, ?_⟩
        have : l = CartLine.mk margheritaPizza 2 := List.mem_singleton.mp hl
        rw [this]
        show (169 : ℚ) = 16900/100
        norm_num)
    (by decide)
  exact h.2.1

end ConcreteC2

/-! ### Claim C8 -/

/-- Known registry codes are already normalised: `upper().strip()` leaves
them unchanged. -/
theorem couponMap_known_normalize {c : String} {v : ℚ × List String}
    (h : couponMap c = some v) : normalizeCode c = c := by
  unfold couponMap at h
  split_ifs at h with h1 h2 h3 h4
  · rw [h1]
    decide
  · rw [h2]
    decide
  · rw [h3]
    decide
  · rw [h4]
    decide

/-- C8: the coupon-apply handler rejects a non-empty unknown code leaving the
active coupon unchanged, clears the coupon on an empty code, and on a known
code stores it and returns the recomputed totals. -/
theorem claim_C8_apply_coupon (raw prev : String) (cart : List CartLine) :
    (normalizeCode raw ≠ "" → couponMap (normalizeCode raw) = none →
      apply_coupon raw prev cart =
        { ok := false, sessionCoupon := prev, totals := none }) ∧
    (normalizeCode raw = "" →
      apply_coupon raw prev cart =
        { ok := true, sessionCoupon := "",
          totals := some (cartTotals cart "") }) ∧
    (∀ v, couponMap (normalizeCode raw) = some v →
      apply_coupon raw prev cart =
        { ok := true, sessionCoupon := normalizeCode raw,
          totals := some (cartTotals cart (normalizeCode raw)) }) := by
  refine ⟨?_, ?_, ?_⟩
  · intro hne hnone
    simp only [apply_coupon]
    rw [if_pos ⟨hne, hnone⟩]
  · intro h0
    simp only [apply_coupon, h0]
    rw [if_neg (by rintro ⟨hne, -⟩; exact hne rfl)]
    have : normalizeCode "" = "" := by decide
    rw [this]
  · intro v hv
    simp only [apply_coupon]
    rw [if_neg (by rintro ⟨-, hnone⟩; rw [hv] at hnone; exact Option.noConfusion hnone)]
    rw [couponMap_known_normalize hv]

section ConcreteC8

attribute [local semireducible] Rat.mul Rat.add Rat.sub Rat.inv

/-- Witness for C8: applying `"PIZZA50"` over a previous session value
stores it and returns the pizza cart's totals. -/
theorem claim_C8_witness :
    apply_coupon "PIZZA50" "OLD" [CartLine.mk margheritaPizza 2] =
      { ok := true, sessionCoupon := normalizeCode "PIZZA50",
        totals := some (cartTotals [CartLine.mk margheritaPizza 2]
          (normalizeCode "PIZZA50")) } :=
  (claim_C8_apply_coupon "PIZZA50" "OLD" [CartLine.mk margheritaPizza 2]).2.2
    (1/2, ["pizza"]) (by decide)

end ConcreteC8

/-! ### Claim C7 -/

/-- C7: `place_order` on an empty cart fails and changes nothing — no orders
are created, the catalog's `order_count`s are untouched, and the session
coupon is not cleared. -/
theorem claim_C7_empty_cart (s : ShopState) (h : s.cart = []) :
    place_order s = (s, false) ∧
    (place_order s).1.orders = s.orders ∧
    (place_order s).1.catalog = s.catalog ∧
    (place_order s).1.coupon = s.coupon := by
  have he : place_order s = (s, false) := by
    unfold place_order
    rw [if_pos h]
  rw [he]
  exact ⟨rfl, rfl, rfl, rfl⟩

/-- Witness for C7 at a concrete empty-cart state with a live coupon. -/
theorem claim_C7_witness :
    place_order ⟨[margheritaPizza], [], [], "PIZZA50"⟩ =
      (⟨[margheritaPizza], [], [], "PIZZA50"⟩, false) :=
  (claim_C7_empty_cart ⟨[margheritaPizza], [], [], "PIZZA50"⟩ rfl).1

/-! ### Claim C6 -/

theorem rollback_committed (t : Txn) : (rollback t).committed = t.committed := rfl

/-- Uncommitted writes never move the committed database state. -/
theorem committed_foldl_writes (t : Txn) (ws : List DBWrite) :
    ((ws.map TxnStep.write).foldl applyStep t).committed = t.committed := by
  induction ws generalizing t with
  | nil => rfl
  | cons w ws ih =>
      simp only [List.map_cons, List.foldl_cons]
      exact ih _

/-- C6: checkout is atomic.  If the persistence layer raises after any proper
prefix of the session writes (the commit is the final step), the handler's
rollback leaves the database exactly as before the attempt — no order or
order-line rows from the attempt, cart and `order_count`s untouched — and a
structured failure is returned. -/
theorem claim_C6_checkout_atomic (db : DBState) (sc : String) (i : ℕ)
    (hcart : db.cart ≠ [])
    (hi : i < (checkoutSteps db.cart (normalizeCode sc)).length) :
    runCheckout db sc (some i) = (db, false) ∧
    (runCheckout db sc (some i)).1.orders = db.orders ∧
    (runCheckout db sc (some i)).1.cart = db.cart ∧
    (runCheckout db sc (some i)).1.catalog = db.catalog ∧
    (runCheckout db sc (some i)).2 = false := by
  have hrun : runCheckout db sc (some i) = (db, false) := by
    simp only [runCheckout]
    rw [if_neg hcart]
    simp only [hi, if_true]
    have hlen : i ≤ (checkoutWrites db.cart (normalizeCode sc)).length := by
      have h2 := hi
      simp only [checkoutSteps, List.length_append, List.length_map,
        List.length_cons, List.length_nil] at h2
      omega
    simp only [checkoutSteps]
    rw [List.take_append_of_le_length (by simpa using hlen), ← List.map_take,
      rollback_committed, committed_foldl_writes]
  rw [hrun]
  exact ⟨rfl, rfl, rfl, rfl, rfl⟩

section ConcreteC6

attribute [local semireducible] Rat.mul Rat.add Rat.sub Rat.inv

/-- Witness for C6: a failure right after the first write of a concrete
checkout rolls everything back. -/
theorem claim_C6_witness :
    runCheckout ⟨[margheritaPizza], [CartLine.mk margheritaPizza 2], []⟩
        "PIZZA50" (some 1) =
      (⟨[margheritaPizza], [CartLine.mk margheritaPizza 2], []⟩, false) :=
  (claim_C6_checkout_atomic ⟨[margheritaPizza], [CartLine.mk margheritaPizza 2], []⟩
    "PIZZA50" 1 (by decide) (by decide)).1

end ConcreteC6

/-! ### Claim C3 -/

theorem mem_distinctKeysAux {a : ℕ} :
    ∀ {seen l : List ℕ}, a ∈ distinctKeysAux seen l ↔ (a ∈ l ∧ a ∉ seen) := by
  intro seen l
  induction l generalizing seen with
  | nil => simp [distinctKeysAux]
  | cons x xs ih =>
      simp only [distinctKeysAux]
      split_ifs with hx
      · simp only [ih, List.mem_cons]
        constructor
        · rintro ⟨h1, h2⟩
          exact ⟨Or.inr h1, h2⟩
        · rintro ⟨h1 | h1, h2⟩
          · have : a ∈ seen := by rw [h1]; exact hx
            exact absurd this h2
          · exact ⟨h1, h2⟩
      · simp only [List.mem_cons, ih]
        constructor
        · rintro (rfl | ⟨h1, h2⟩)
          · exact ⟨Or.inl rfl, hx⟩
          · exact ⟨Or.inr h1, fun hs => h2 (Or.inr hs)⟩
        · rintro ⟨rfl | h1, h2⟩
          · exact Or.inl rfl
          · by_cases hax : a = x
            · exact Or.inl hax
            · refine Or.inr ⟨h1, ?_⟩
              rintro (hh | hh)
              · exact hax hh
              · exact h2 hh

theorem nodup_distinctKeysAux : ∀ (seen l : List ℕ), (distinctKeysAux seen l).Nodup := by
  intro seen l
  induction l generalizing seen with
  | nil => simp [distinctKeysAux]
  | cons x xs ih =>
      simp only [distinctKeysAux]
      split_ifs with hx
      · exact ih _
      · rw [List.nodup_cons]
        refine ⟨?_, ih _⟩
        rw [mem_distinctKeysAux]
        rintro ⟨-, hmem⟩
        exact hmem (List.mem_cons_self _ _)

theorem length_distinctKeys (l : List ℕ) :
    (distinctKeys l).length = l.toFinset.card := by
  have hnd : (distinctKeys l).Nodup := nodup_distinctKeysAux [] l
  have hset : (distinctKeys l).toFinset = l.toFinset := by
    ext a
    simp [List.mem_toFinset, distinctKeys, mem_distinctKeysAux]
  rw [← hset, List.toFinset_card_of_nodup hnd]

/-- C3: `place_order` on a non-empty cart succeeds, clears the cart and the
session coupon, appends one order per distinct restaurant in the cart, each
order's lines coming exactly from its own restaurant's cart lines with the
discounted unit price frozen in, each order's `total_amount` being the
2-decimal rounding of the sum of its lines' `quantity × price`, and bumps
every catalog item's `order_count` by the quantity ordered of it. -/
theorem claim_C3_place_order (s : ShopState) (h : s.cart ≠ []) :
    (place_order s).2 = true ∧
    (place_order s).1.cart = [] ∧
    (place_order s).1.coupon = "" ∧
    (place_order s).1.orders =
      s.orders ++ ordersForCart s.cart (normalizeCode s.coupon) ∧
    (ordersForCart s.cart (normalizeCode s.coupon)).length =
      (s.cart.map (fun l => l.menu_item.restaurant_id)).toFinset.card ∧
    (∀ o ∈ ordersForCart s.cart (normalizeCode s.coupon),
      (∀ ln ∈ o.lines, ∃ cl ∈ s.cart,
        cl.menu_item.restaurant_id = o.restaurant_id ∧
        ln = ⟨cl.menu_item.id, cl.quantity,
              _discounted_unit_price cl.menu_item (normalizeCode s.coupon)⟩) ∧
      o.total_amount =
        round2 ((o.lines.map (fun ln => (ln.quantity : ℚ) * ln.price)).sum)) ∧
    (∀ cl ∈ s.cart, ∃ o ∈ ordersForCart s.cart (normalizeCode s.coupon),
      o.restaurant_id = cl.menu_item.restaurant_id ∧
      (⟨cl.menu_item.id, cl.quantity,
        _discounted_unit_price cl.menu_item (normalizeCode s.coupon)⟩ : OrderLine)
        ∈ o.lines) ∧
    (place_order s).1.catalog = s.catalog.map (fun m =>
      { m with order_count := m.order_count + orderedQty s.cart m.id }) := by
  have hstep : place_order s =
      ({ catalog := s.catalog.map (fun m =>
            { m with order_count := m.order_count + orderedQty s.cart m.id })
         cart := []
         orders := s.orders ++ ordersForCart s.cart (normalizeCode s.coupon)
         coupon := "" }, true) := by
    unfold place_order
    rw [if_neg h]
  refine ⟨by rw [hstep], by rw [hstep], by rw [hstep], by rw [hstep], ?_, ?_, ?_,
    by rw [hstep]⟩
  · rw [ordersForCart, List.length_map, length_distinctKeys]
  · intro o ho
    rw [ordersForCart, List.mem_map] at ho
    obtain ⟨rid, -, rfl⟩ := ho
    constructor
    · intro ln hln
      rw [orderForRestaurant] at hln
      simp only [List.mem_map, List.mem_filter] at hln
      obtain ⟨cl, ⟨hcl, hr⟩, rfl⟩ := hln
      exact ⟨cl, hcl, of_decide_eq_true hr, rfl⟩
    · simp only [orderForRestaurant]
      rw [List.map_map]
      rfl
  · intro cl hcl
    refine ⟨orderForRestaurant s.cart (normalizeCode s.coupon)
      cl.menu_item.restaurant_id, ?_, rfl, ?_⟩
    · rw [ordersForCart, List.mem_map]
      refine ⟨cl.menu_item.restaurant_id, ?_, rfl⟩
      rw [distinctKeys, mem_distinctKeysAux]
      exact ⟨List.mem_map_of_mem _ hcl, List.not_mem_nil _⟩
    · rw [orderForRestaurant]
      simp only [List.mem_map, List.mem_filter]
      exact ⟨cl, ⟨hcl, by simp⟩, rfl⟩

section ConcreteC3

attribute [local semireducible] Rat.mul Rat.add Rat.sub Rat.inv

/-- Witness for C3: checking out the two-restaurant cart succeeds and creates
exactly two orders. -/
theorem claim_C3_witness :
    (place_order ⟨[margheritaPizza, sushiNigiri], twoRestaurantCart, [],
        "PIZZA50"⟩).2 = true ∧
    (ordersForCart twoRestaurantCart (normalizeCode "PIZZA50")).length = 2 := by
  have hc := claim_C3_place_order
    ⟨[margheritaPizza, sushiNigiri], twoRestaurantCart, [], "PIZZA50"⟩ (by decide)
  exact ⟨hc.1, hc.2.2.2.2.1.trans (by decide)⟩

end ConcreteC3

/-! ### Recommendation lemmas -/

theorem mem_dedupById {m : MenuItem} :
    ∀ {seen : List ℕ} {l : List MenuItem}, m ∈ dedupById seen l → m ∈ l := by
  intro seen l
  induction l generalizing seen with
  | nil => simp [dedupById]
  | cons x xs ih =>
      simp only [dedupById]
      split_ifs with hx
      · intro h
        exact List.mem_cons_of_mem _ (ih h)
      · intro h
        rcases List.mem_cons.mp h with h | h
        · exact h ▸ List.mem_cons_self _ _
        · exact List.mem_cons_of_mem _ (ih h)

theorem dedupById_id_not_seen {m : MenuItem} :
    ∀ {seen : List ℕ} {l : List MenuItem}, m ∈ dedupById seen l → m.id ∉ seen := by
  intro seen l
  induction l generalizing seen with
  | nil => simp [dedupById]
  | cons x xs ih =>
      simp only [dedupById]
      split_ifs with hx
      · exact ih
      · intro h
        rcases List.mem_cons.mp h with h | h
        · rw [h]
          exact hx
        · intro hs
          exact ih h (List.mem_cons_of_mem _ hs)

theorem nodup_ids_dedupById :
    ∀ (seen : List ℕ) (l : List MenuItem),
      ((dedupById seen l).map (fun m => m.id)).Nodup := by
  intro seen l
  induction l generalizing seen with
  | nil => simp [dedupById]
  | cons x xs ih =>
      simp only [dedupById]
      split_ifs with hx
      · exact ih _
      · simp only [List.map_cons, List.nodup_cons]
        refine ⟨?_, ih _⟩
        intro hmem
        obtain ⟨m, hm, hid⟩ := List.mem_map.mp hmem
        exact dedupById_id_not_seen hm (hid ▸ List.mem_cons_self _ _)

theorem dedupById_eq_self :
    ∀ {seen : List ℕ} {l : List MenuItem},
      (l.map (fun m => m.id)).Nodup → (∀ m ∈ l, m.id ∉ seen) →
      dedupById seen l = l := by
  intro seen l
  induction l generalizing seen with
  | nil => intro _ _; rfl
  | cons x xs ih =>
      intro hnd hdisj
      simp only [dedupById]
      rw [if_neg (hdisj x (List.mem_cons_self _ _))]
      congr 1
      simp only [List.map_cons, List.nodup_cons] at hnd
      refine ih hnd.2 ?_
      intro m hm hs
      rcases List.mem_cons.mp hs with h | h
      · exact hnd.1 (h ▸ List.mem_map_of_mem _ hm)
      · exact hdisj m (List.mem_cons_of_mem _ hm) h

theorem dedupById_eq_nil :
    ∀ {seen : List ℕ} {l : List MenuItem},
      (∀ m ∈ l, m.id ∈ seen) → dedupById seen l = [] := by
  intro seen l
  induction l generalizing seen with
  | nil => intro _; rfl
  | cons x xs ih =>
      intro h
      simp only [dedupById]
      rw [if_pos (h x (List.mem_cons_self _ _))]
      exact ih fun m hm => h m (List.mem_cons_of_mem _ hm)

theorem dedupById_append_subsumed :
    ∀ {seen : List ℕ} {l₁ l₂ : List MenuItem},
      (l₁.map (fun m => m.id)).Nodup → (∀ m ∈ l₁, m.id ∉ seen) →
      (∀ m ∈ l₂, m.id ∈ seen ∨ m.id ∈ l₁.map (fun m => m.id)) →
      dedupById seen (l₁ ++ l₂) = l₁ := by
  intro seen l₁ l₂
  induction l₁ generalizing seen with
  | nil =>
      intro _ _ hsub
      simp only [List.nil_append]
      refine dedupById_eq_nil ?_
      intro m hm
      rcases hsub m hm with h | h
      · exact h
      · simp at h
  | cons x xs ih =>
      intro hnd hdisj hsub
      simp only [List.cons_append, dedupById]
      rw [if_neg (hdisj x (List.mem_cons_self _ _))]
      congr 1
      simp only [List.map_cons, List.nodup_cons] at hnd
      refine ih hnd.2 ?_ ?_
      · intro m hm hs
        rcases List.mem_cons.mp hs with h | h
        · exact hnd.1 (h ▸ List.mem_map_of_mem _ hm)
        · exact hdisj m (List.mem_cons_of_mem _ hm) h
      · intro m hm
        rcases hsub m hm with h | h
        · exact Or.inl (List.mem_cons_of_mem _ h)
        · rcases List.mem_cons.mp (List.map_cons _ x xs ▸ h) with h | h
          · exact Or.inl (h ▸ List.mem_cons_self _ _)
          · exact Or.inr h

theorem perm_sortByOrderCountDesc (l : List MenuItem) :
    List.Perm (sortByOrderCountDesc l) l :=
  List.perm_insertionSort byCountDesc l

theorem sorted_sortByOrderCountDesc (l : List MenuItem) :
    (sortByOrderCountDesc l).Pairwise byCountDesc :=
  List.sorted_insertionSort byCountDesc l

theorem mem_sortByOrderCountDesc {l : List MenuItem} {m : MenuItem} :
    m ∈ sortByOrderCountDesc l ↔ m ∈ l :=
  (perm_sortByOrderCountDesc l).mem_iff

theorem length_sortByOrderCountDesc (l : List MenuItem) :
    (sortByOrderCountDesc l).length = l.length :=
  (perm_sortByOrderCountDesc l).length_eq

theorem nodup_ids_sortByOrderCountDesc {l : List MenuItem}
    (h : (l.map (fun m => m.id)).Nodup) :
    ((sortByOrderCountDesc l).map (fun m => m.id)).Nodup :=
  (((perm_sortByOrderCountDesc l).map (fun m => m.id)).nodup_iff).mpr h

theorem nodup_ids_filter {catalog : List MenuItem} {p : MenuItem → Bool}
    (h : (catalog.map (fun m => m.id)).Nodup) :
    ((catalog.filter p).map (fun m => m.id)).Nodup :=
  List.Nodup.sublist ((List.filter_sublist _).map _) h

theorem mem_dietaryCandidates_flags {prefs : List UserPreference}
    {catalog : List MenuItem} {m : MenuItem}
    (h : m ∈ dietaryCandidates prefs catalog) :
    m.is_available = true ∧
    (requireVegan prefs = true → m.is_vegan = true) ∧
    (requireVeg prefs = true → m.is_vegetarian = true) ∧
    (requireGlutenFree prefs = true → m.is_gluten_free = true) := by
  rw [dietaryCandidates, List.mem_filter] at h
  obtain ⟨-, hb⟩ := h
  simp only [Bool.and_eq_true, Bool.or_eq_true, Bool.not_eq_true'] at hb
  obtain ⟨⟨⟨ha, hv⟩, hveg⟩, hgf⟩ := hb
  refine ⟨ha, ?_, ?_, ?_⟩
  · intro hr
    rcases hv with h | h
    · rw [hr] at h
      exact absurd h (by simp)
    · exact h
  · intro hr
    rcases hveg with h | h
    · rw [hr] at h
      exact absurd h (by simp)
    · exact h
  · intro hr
    rcases hgf with h | h
    · rw [hr] at h
      exact absurd h (by simp)
    · exact h

theorem primary_mem_dietary {prefs : List UserPreference}
    {catalog : List MenuItem} {m : MenuItem}
    (h : m ∈ primaryCandidates prefs catalog) :
    m ∈ dietaryCandidates prefs catalog := by
  rw [primaryCandidates, List.mem_filter] at h
  rw [dietaryCandidates, List.mem_filter]
  obtain ⟨hm, hb⟩ := h
  simp only [Bool.and_eq_true] at hb ⊢
  exact ⟨hm, ⟨⟨hb.1.1.1.1, hb.1.1.2⟩, hb.1.2⟩, hb.2⟩

theorem result_mem_dietary {prefs : List UserPreference}
    {catalog : List MenuItem} {m : MenuItem}
    (h : m ∈ Customer.get_customer_recommendations prefs catalog) :
    m ∈ dietaryCandidates prefs catalog := by
  simp only [Customer.get_customer_recommendations] at h
  have h1 := mem_dedupById (List.take_subset _ _ h)
  rcases List.mem_append.mp h1 with h2 | h2
  · exact primary_mem_dietary
      (mem_sortByOrderCountDesc.mp (List.take_subset _ _ h2))
  · by_cases hc :
      ((sortByOrderCountDesc (primaryCandidates prefs catalog)).take 8).length < 8
    · rw [if_pos hc] at h2
      exact mem_sortByOrderCountDesc.mp (List.take_subset _ _ h2)
    · rw [if_neg hc] at h2
      exact absurd h2 (List.not_mem_nil m)

theorem nodup_ids_result (prefs : List UserPreference) (catalog : List MenuItem) :
    ((Customer.get_customer_recommendations prefs catalog).map
      (fun m => m.id)).Nodup := by
  simp only [Customer.get_customer_recommendations]
  exact List.Nodup.sublist ((List.take_sublist _ _).map _) (nodup_ids_dedupById [] _)

theorem primaryCandidates_nil (catalog : List MenuItem) :
    primaryCandidates [] catalog = catalog.filter (fun m => m.is_available) := by
  unfold primaryCandidates
  apply List.filter_congr
  intro m _
  simp [favoriteCuisines, requireVegan, requireVeg, requireGlutenFree, dietaryValues]

theorem dietaryCandidates_nil (catalog : List MenuItem) :
    dietaryCandidates [] catalog = catalog.filter (fun m => m.is_available) := by
  unfold dietaryCandidates
  apply List.filter_congr
  intro m _
  simp [requireVegan, requireVeg, requireGlutenFree, dietaryValues]

/-! ### Claim C10 -/

/-- C10: the blueprint and legacy implementations of the recommendation
scorer agree on every preference set and catalog. -/
theorem claim_C10_duplicate_scorers_agree (prefs : List UserPreference)
    (catalog : List MenuItem) :
    Customer.get_customer_recommendations prefs catalog =
      Routes.get_customer_recommendations prefs catalog := rfl

/-! ### Claim C4 -/

/-- C4: the scorer returns at most 8 items, every returned item is available
and satisfies each active dietary hard filter, no item id repeats; on a
catalog with distinct row ids, an empty preference set yields exactly the
available items in descending `order_count` capped at 8, and when fewer than
8 items qualify for the dietary filters the result stays below 8 (no
padding). -/
theorem claim_C4_recommendation_scorer (prefs : List UserPreference)
    (catalog : List MenuItem) :
    (Customer.get_customer_recommendations prefs catalog).length ≤ 8 ∧
    (∀ m ∈ Customer.get_customer_recommendations prefs catalog,
      m.is_available = true ∧
      (requireVegan prefs = true → m.is_vegan = true) ∧
      (requireVeg prefs = true → m.is_vegetarian = true) ∧
      (requireGlutenFree prefs = true → m.is_gluten_free = true)) ∧
    ((Customer.get_customer_recommendations prefs catalog).map
      (fun m => m.id)).Nodup ∧
    ((catalog.map (fun m => m.id)).Nodup → prefs = [] →
      Customer.get_customer_recommendations prefs catalog =
        (sortByOrderCountDesc (catalog.filter (fun m => m.is_available))).take 8 ∧
      (Customer.get_customer_recommendations prefs catalog).Pairwise byCountDesc) ∧
    ((catalog.map (fun m => m.id)).Nodup →
      (dietaryCandidates prefs catalog).length < 8 →
      (Customer.get_customer_recommendations prefs catalog).length < 8) := by
  refine ⟨?_, ?_, nodup_ids_result prefs catalog, ?_, ?_⟩
  · simp only [Customer.get_customer_recommendations]
    rw [List.length_take]
    exact min_le_left _ _
  · intro m hm
    exact mem_dietaryCandidates_flags (result_mem_dietary hm)
  · rintro hn rfl
    have hA := primaryCandidates_nil catalog
    have hB := dietaryCandidates_nil catalog
    have hSnd : ((sortByOrderCountDesc (catalog.filter
        (fun m => m.is_available))).map (fun m => m.id)).Nodup :=
      nodup_ids_sortByOrderCountDesc (nodup_ids_filter hn)
    simp only [Customer.get_customer_recommendations, hA, hB]
    rcases lt_or_le (sortByOrderCountDesc (catalog.filter
        (fun m => m.is_available))).length 8 with hlen | hlen
    · have hc : ((sortByOrderCountDesc (catalog.filter
          (fun m => m.is_available))).take 8).length < 8 := by
        rw [List.length_take]
        omega
      rw [if_pos hc]
      rw [List.take_of_length_le (le_of_lt hlen)]
      have hded : dedupById []
          (sortByOrderCountDesc (catalog.filter (fun m => m.is_available)) ++
            (sortByOrderCountDesc (catalog.filter (fun m => m.is_available))).take
              (8 - (sortByOrderCountDesc (catalog.filter
                (fun m => m.is_available))).length)) =
          sortByOrderCountDesc (catalog.filter (fun m => m.is_available)) := by
        refine dedupById_append_subsumed hSnd (fun m _ => List.not_mem_nil _) ?_
        intro m hmem
        exact Or.inr (List.mem_map_of_mem _ (List.take_subset _ _ hmem))
      rw [hded]
      refine ⟨List.take_of_length_le (le_of_lt hlen), ?_⟩
      exact List.Pairwise.sublist (List.take_sublist _ _)
        (sorted_sortByOrderCountDesc _)
    · have hc : ¬ ((sortByOrderCountDesc (catalog.filter
          (fun m => m.is_available))).take 8).length < 8 := by
        rw [List.length_take]
        omega
      rw [if_neg hc, List.append_nil]
      have hded : dedupById []
          ((sortByOrderCountDesc (catalog.filter (fun m => m.is_available))).take 8) =
          (sortByOrderCountDesc (catalog.filter (fun m => m.is_available))).take 8 :=
        dedupById_eq_self
          (List.Nodup.sublist ((List.take_sublist _ _).map _) hSnd)
          (fun m _ => List.not_mem_nil _)
      rw [hded, List.take_take, Nat.min_self]
      refine ⟨rfl, ?_⟩
      exact List.Pairwise.sublist (List.take_sublist _ _)
        (sorted_sortByOrderCountDesc _)
  · intro hn hlt
    have hnd := nodup_ids_result prefs catalog
    have hdnd : ((dietaryCandidates prefs catalog).map (fun m => m.id)).Nodup :=
      nodup_ids_filter hn
    have hsub : ((Customer.get_customer_recommendations prefs catalog).map
        (fun m => m.id)).toFinset ⊆
        ((dietaryCandidates prefs catalog).map (fun m => m.id)).toFinset := by
      intro a ha
      rw [List.mem_toFinset] at ha ⊢
      obtain ⟨m, hm, rfl⟩ := List.mem_map.mp ha
      exact List.mem_map_of_mem _ (result_mem_dietary hm)
    have h1 : (Customer.get_customer_recommendations prefs catalog).length =
        ((Customer.get_customer_recommendations prefs catalog).map
          (fun m => m.id)).toFinset.card := by
      rw [List.toFinset_card_of_nodup hnd, List.length_map]
    have h2 : ((dietaryCandidates prefs catalog).map
        (fun m => m.id)).toFinset.card ≤ (dietaryCandidates prefs catalog).length := by
      calc ((dietaryCandidates prefs catalog).map (fun m => m.id)).toFinset.card
          ≤ ((dietaryCandidates prefs catalog).map (fun m => m.id)).length :=
            List.toFinset_card_le _
        _ = (dietaryCandidates prefs catalog).length := List.length_map _ _
    have := Finset.card_le_card hsub
    omega

section ConcreteC4

/-- Witness for C4 at the empty preference set over the nine-item catalog:
the hypotheses hold and the scorer returns the popularity ranking capped
at 8. -/
theorem claim_C4_witness :
    Customer.get_customer_recommendations [] nineItemCatalog =
      (sortByOrderCountDesc (nineItemCatalog.filter
        (fun m => m.is_available))).take 8 :=
  (((claim_C4_recommendation_scorer [] nineItemCatalog).2.2.2.1 (by decide) rfl)).1

end ConcreteC4

/-! ### Claim C5 -/

/-- C5 (amended): when the primary candidate set has `k < 8` items, at least
8 available items satisfy the dietary filters alone, and none of the top
`8 - k` cuisine-unrestricted candidates repeats a primary item's id, the
backfill brings the result to exactly 8 items.  (Without the disjointness
condition the source's `limit(8 - k)` runs before de-duplication, so overlap
leaves fewer than 8 — see the counterexample.) -/
theorem claim_C5_backfill (prefs : List UserPreference) (catalog : List MenuItem)
    (hn : (catalog.map (fun m => m.id)).Nodup)
    (hk : ((sortByOrderCountDesc (primaryCandidates prefs catalog)).take 8).length < 8)
    (hb : 8 ≤ (dietaryCandidates prefs catalog).length)
    (hdisj : ∀ m ∈ (sortByOrderCountDesc (dietaryCandidates prefs catalog)).take
        (8 - ((sortByOrderCountDesc (primaryCandidates prefs catalog)).take 8).length),
      m.id ∉ ((sortByOrderCountDesc (primaryCandidates prefs catalog)).take 8).map
        (fun m => m.id)) :
    (Customer.get_customer_recommendations prefs catalog).length = 8 := by
  have hPnd : (((sortByOrderCountDesc (primaryCandidates prefs catalog)).take 8).map
      (fun m => m.id)).Nodup :=
    List.Nodup.sublist ((List.take_sublist _ _).map _)
      (nodup_ids_sortByOrderCountDesc (nodup_ids_filter hn))
  have hBnd : (((sortByOrderCountDesc (dietaryCandidates prefs catalog)).take
      (8 - ((sortByOrderCountDesc (primaryCandidates prefs catalog)).take 8).length)).map
      (fun m => m.id)).Nodup :=
    List.Nodup.sublist ((List.take_sublist _ _).map _)
      (nodup_ids_sortByOrderCountDesc (nodup_ids_filter hn))
  have happ : ((((sortByOrderCountDesc (primaryCandidates prefs catalog)).take 8) ++
      (sortByOrderCountDesc (dietaryCandidates prefs catalog)).take
        (8 - ((sortByOrderCountDesc (primaryCandidates prefs catalog)).take 8).length)).map
      (fun m => m.id)).Nodup := by
    rw [List.map_append, List.nodup_append]
    refine ⟨hPnd, hBnd, ?_⟩
    intro a ha hb2
    obtain ⟨m, hm, rfl⟩ := List.mem_map.mp hb2
    exact hdisj m hm ha
  have hded : dedupById []
      (((sortByOrderCountDesc (primaryCandidates prefs catalog)).take 8) ++
        (sortByOrderCountDesc (dietaryCandidates prefs catalog)).take
          (8 - ((sortByOrderCountDesc (primaryCandidates prefs catalog)).take 8).length)) =
      ((sortByOrderCountDesc (primaryCandidates prefs catalog)).take 8) ++
        (sortByOrderCountDesc (dietaryCandidates prefs catalog)).take
          (8 - ((sortByOrderCountDesc (primaryCandidates prefs catalog)).take 8).length) :=
    dedupById_eq_self happ (fun m _ => List.not_mem_nil _)
  simp only [Customer.get_customer_recommendations]
  rw [if_pos hk, hded, List.length_take, List.length_append, List.length_take,
    List.length_take, length_sortByOrderCountDesc, length_sortByOrderCountDesc]
  rw [List.length_take, length_sortByOrderCountDesc] at hk
  omega

section ConcreteC5

/-- C5 counterexample: with a favourite-cuisine preference whose primary set
has 1 item and a 9-item dietary pool, the most popular backfill candidates
repeat the primary item, so the scorer returns 7 items, not 8. -/
theorem claim_C5_counterexample :
    ((sortByOrderCountDesc (primaryCandidates italianPrefs nineItemCatalog)).take
        8).length < 8 ∧
    8 ≤ (dietaryCandidates italianPrefs nineItemCatalog).length ∧
    (Customer.get_customer_recommendations italianPrefs nineItemCatalog).length = 7 := by
  refine ⟨by decide, by decide, by decide⟩

/-- Witness for the amended C5: with the Italian item least popular the top-7
backfill is disjoint from the primary set and the result reaches 8. -/
theorem claim_C5_witness :
    (Customer.get_customer_recommendations italianPrefs nineItemCatalogB).length = 8 :=
  claim_C5_backfill italianPrefs nineItemCatalogB (by decide) (by decide)
    (by decide) (by decide)

end ConcreteC5

end FoodDel
